import Mathlib

/-!
# Verification of the vaultvisor supervisor core

A shallow embedding of `src/vaultvisor/src/vaultvisor.rs`: the storage-key
derivation (`compute_storage_key` over `twox_128`), the supervisor state and
its operations (`download_binary`, `delete_downloaded_release`, `run_binary`,
`terminate_proc_and_wait`), and the runner loop (`run` plus its per-tick
body).  Machine integers are modelled as `Nat` reduced mod `2 ^ 64` where
overflow matters; fallible operations return an explicit result type that
carries the (possibly mutated) state, mirroring Rust's `&mut self` plus
`Result`.
-/

namespace Vaultvisor

/-! ## twox128 / XXH64 (model of the `sp_core_hashing::twox_128` dependency)

`twox_128(data)` is the little-endian concatenation of `XXH64(data, seed = 0)`
and `XXH64(data, seed = 1)`.  The XXH64 algorithm below follows the reference
specification; 64-bit words are `Nat` values kept below `2 ^ 64`. -/

/-- Reduce a `Nat` to a 64-bit word. -/
def wrap64 (x : Nat) : Nat := x % 2 ^ 64

/-- Rotate a 64-bit word (`x < 2 ^ 64`) left by `r` bits: the wrapped
left-shift and the right-shift by `64 - r` occupy disjoint bit ranges, so
their bitwise-or is addition. -/
def rotl64 (x r : Nat) : Nat := (x % 2 ^ (64 - r)) * 2 ^ r + x / 2 ^ (64 - r)

def xxPrime1 : Nat := 11400714785074694791
def xxPrime2 : Nat := 14029467366897019727
def xxPrime3 : Nat := 1609587929392839161
def xxPrime4 : Nat := 9650029242287828579
def xxPrime5 : Nat := 2870177450012600261

/-- One XXH64 accumulator round. -/
def xxRound (acc lane : Nat) : Nat :=
  wrap64 (rotl64 (wrap64 (acc + wrap64 (lane * xxPrime2))) 31 * xxPrime1)

/-- Merge one accumulator into the 64-bit digest (used for inputs ≥ 32 bytes). -/
def xxMergeRound (h acc : Nat) : Nat :=
  wrap64 (wrap64 ((h ^^^ xxRound 0 acc) * xxPrime1) + xxPrime4)

/-- Little-endian word value of a byte list (first byte is least significant). -/
def leWord (bs : List Nat) : Nat := bs.foldr (fun b acc => b + 256 * acc) 0

/-- The XXH64 final avalanche. -/
def xxAvalanche (h : Nat) : Nat :=
  let h1 := wrap64 ((h ^^^ (h >>> 33)) * xxPrime2)
  let h2 := wrap64 ((h1 ^^^ (h1 >>> 29)) * xxPrime3)
  h2 ^^^ (h2 >>> 32)

/-- The XXH64 tail: consume 8-byte lanes, then at most one 4-byte word, then
single bytes, then avalanche. -/
def xxFinish (h : Nat) : List Nat → Nat
  | b0 :: b1 :: b2 :: b3 :: b4 :: b5 :: b6 :: b7 :: rest =>
    xxFinish
      (wrap64 (wrap64 (rotl64 (h ^^^ xxRound 0 (leWord [b0, b1, b2, b3, b4, b5, b6, b7])) 27
        * xxPrime1) + xxPrime4)) rest
  | b0 :: b1 :: b2 :: b3 :: rest =>
    xxFinish
      (wrap64 (wrap64 (rotl64 (h ^^^ wrap64 (leWord [b0, b1, b2, b3] * xxPrime1)) 23
        * xxPrime2) + xxPrime3)) rest
  | b :: rest =>
    xxFinish (wrap64 (rotl64 (h ^^^ wrap64 (b * xxPrime5)) 11 * xxPrime1)) rest
  | [] => xxAvalanche h

/-- The XXH64 stripe loop for inputs of at least 32 bytes: four parallel
accumulators, each absorbing one 8-byte lane per stripe.  Returns the final
accumulators and the unconsumed remainder. -/
def xxStripes (a1 a2 a3 a4 : Nat) : List Nat → Nat × Nat × Nat × Nat × List Nat
  | b0 :: b1 :: b2 :: b3 :: b4 :: b5 :: b6 :: b7 ::
    c0 :: c1 :: c2 :: c3 :: c4 :: c5 :: c6 :: c7 ::
    d0 :: d1 :: d2 :: d3 :: d4 :: d5 :: d6 :: d7 ::
    e0 :: e1 :: e2 :: e3 :: e4 :: e5 :: e6 :: e7 :: rest =>
    xxStripes
      (xxRound a1 (leWord [b0, b1, b2, b3, b4, b5, b6, b7]))
      (xxRound a2 (leWord [c0, c1, c2, c3, c4, c5, c6, c7]))
      (xxRound a3 (leWord [d0, d1, d2, d3, d4, d5, d6, d7]))
      (xxRound a4 (leWord [e0, e1, e2, e3, e4, e5, e6, e7])) rest
  | bs => (a1, a2, a3, a4, bs)

/-- XXH64 of a byte list with the given seed. -/
def xxh64 (seed : Nat) (input : List Nat) : Nat :=
  let n := input.length
  if n ≥ 32 then
    let r := xxStripes (wrap64 (seed + xxPrime1 + xxPrime2)) (wrap64 (seed + xxPrime2))
      (wrap64 seed) (wrap64 (seed + 2 ^ 64 - xxPrime1)) input
    match r with
    | (a1, a2, a3, a4, rest) =>
      let h := wrap64 (rotl64 a1 1 + rotl64 a2 7 + rotl64 a3 12 + rotl64 a4 18)
      let h := xxMergeRound (xxMergeRound (xxMergeRound (xxMergeRound h a1) a2) a3) a4
      xxFinish (wrap64 (h + n)) rest
  else
    xxFinish (wrap64 (seed + xxPrime5 + n)) input

/-- The `w` little-endian bytes of a word. -/
def toLEBytes : Nat → Nat → List Nat
  | 0, _ => []
  | k + 1, x => x % 256 :: toLEBytes k (x / 256)

/-- `twox_128`: XXH64 with seed 0 and with seed 1, each as 8 little-endian
bytes, concatenated. -/
def twox_128 (data : List Nat) : List Nat :=
  toLEBytes 8 (xxh64 0 data) ++ toLEBytes 8 (xxh64 1 data)

/-! ## Hex encoding and UTF-8 bytes -/

/-- Lowercase hex digit for `n < 16`. -/
def hexDigit (n : Nat) : Char :=
  if n < 10 then Char.ofNat (48 + n) else Char.ofNat (97 + n - 10)

/-- Two lowercase hex digits of a byte. -/
def hexByte (b : Nat) : List Char := [hexDigit (b / 16), hexDigit (b % 16)]

/-- Lowercase hex encoding of a byte list (model of `hex::encode`). -/
def hexEncode (bs : List Nat) : String := String.mk (List.flatten (bs.map hexByte))

/-- UTF-8 encoding of a single character. -/
def utf8Char (c : Char) : List Nat :=
  let n := c.toNat
  if n < 128 then [n]
  else if n < 2048 then [192 + n / 64, 128 + n % 64]
  else if n < 65536 then [224 + n / 4096, 128 + n / 64 % 64, 128 + n % 64]
  else [240 + n / 262144, 128 + n / 4096 % 64, 128 + n / 64 % 64, 128 + n % 64]

/-- UTF-8 bytes of a string (model of Rust's `str::as_bytes`). -/
def utf8Bytes (s : String) : List Nat := List.flatten (s.data.map utf8Char)

/-- Model of `compute_storage_key` (vaultvisor.rs lines 218–223):
`"0x" ++ hex(twox_128(module) ++ twox_128(item))`. -/
def compute_storage_key (module key : String) : String :=
  "0x" ++ hexEncode (twox_128 (utf8Bytes module) ++ twox_128 (utf8Bytes key))

/-! ## Data model (vaultvisor.rs lines 38–70) -/

/-- `ClientRelease { uri, code_hash }`; the 32-byte `H256` is modelled by its
numeric value (only equality of hashes matters to the supervisor). -/
structure ClientRelease where
  uri : String
  code_hash : Nat
deriving DecidableEq, Repr

/-- `DownloadedRelease { release, path, bin_name }`; `PathBuf` is modelled as
its string form. -/
structure DownloadedRelease where
  release : ClientRelease
  path : String
  bin_name : String
deriving DecidableEq, Repr

/-- The `Error` enum, with one constructor per variant used in
vaultvisor.rs; library errors reaching `?` through `From` conversions are
collapsed to one constructor per source library. -/
inductive Error where
  | noDownloadedRelease
  | childProcessExists
  | clientNameDerivationError
  | noChildProcess
  | integerConversionError
  | urlParseError
  | ioError
  | httpError
  | nixError
deriving DecidableEq, Repr

/-- A spawned `Child` handle: its OS pid plus the program string and argument
vector it was launched with. -/
structure ChildProc where
  pid : Nat
  program : String
  args : List String
deriving DecidableEq, Repr

/-- A file on disk: contents and permission mode. -/
structure FsFile where
  contents : List Nat
  mode : Nat
deriving DecidableEq, Repr

/-- Observable supervisor actions, recorded in order of completion. -/
inductive Event where
  | terminate
  | delete
  | download
  | spawn
deriving DecidableEq, Repr

/-- The mutable state: the two `Option` fields of `struct Vaultvisor`,
the filesystem (an association list from path to file), and the event
trace. -/
structure St where
  child_proc : Option ChildProc
  downloaded_release : Option DownloadedRelease
  fs : List (String × FsFile)
  events : List Event
deriving DecidableEq, Repr

/-- The read-only configuration: the `vault_args` and `download_path` fields
of `struct Vaultvisor`, plus the process working directory (never changed by
the code). -/
structure Config where
  vault_args : List String
  download_path : String
  cwd : String
deriving DecidableEq, Repr

/-- Outcomes of the OS calls one operation may make.  `fetch` abstracts
`get_request_bytes` (an HTTP GET); the booleans abstract success of
`File::create`, `io::copy`, `set_permissions`, `remove_file`,
`Command::spawn`, pid conversion to `i32`, and `signal::kill`; `waitResult`
is the outcome of `Child::wait` (exit code or error); `newPid` is the pid the
OS assigns on spawn; `createMode` is the mode of a newly created file
(`0o666` masked by the umask). -/
structure IoEnv where
  fetch : String → Except Error (List Nat)
  createOk : Bool
  copyOk : Bool
  chmodOk : Bool
  removeOk : Bool
  spawnOk : Bool
  newPid : Nat
  createMode : Nat
  pidFits : Bool
  killOk : Bool
  waitResult : Except Unit Nat

/-- Result of one fallible operation: Rust's `Result` on a `&mut self`
receiver — the state is returned in the error case too, carrying any
mutations made before the failure. -/
inductive Res (α : Type) where
  | ok (a : α) (s : St)
  | err (e : Error) (s : St)
deriving DecidableEq, Repr

/-! ## Filesystem helpers -/

/-- Lookup in the association-list filesystem. -/
def fsGet : List (String × FsFile) → String → Option FsFile
  | [], _ => none
  | (q, f) :: rest, p => if q = p then some f else fsGet rest p

/-- Write (replace or append) in the association-list filesystem. -/
def fsSet : List (String × FsFile) → String → FsFile → List (String × FsFile)
  | [], p, f => [(p, f)]
  | (q, g) :: rest, p, f => if q = p then (q, f) :: rest else (q, g) :: fsSet rest p f

/-- Remove a path from the association-list filesystem. -/
def fsErase : List (String × FsFile) → String → List (String × FsFile)
  | [], _ => []
  | (q, g) :: rest, p => if q = p then fsErase rest p else (q, g) :: fsErase rest p

/-- `PathBuf::join` for a relative final component; assumes `dir` has no
trailing separator (true of every `download_path` used here). -/
def joinPath (dir file : String) : String := dir ++ "/" ++ file

/-! ## URL model (the `reqwest::Url` dependency)

The model covers hierarchical URLs `scheme://authority[/path][?query][#frag]`
— the only shape the supervisor meets.  A string without `"://"` is a parse
error; `path_segments` is kept as an `Option` to mirror the library
signature (its `none` case, cannot-be-a-base URLs, is not producible in this
model). -/

/-- Characters after the first `"://"`, or `none` when there is none. -/
def afterScheme : List Char → Option (List Char)
  | ':' :: '/' :: '/' :: rest => some rest
  | _ :: rest => afterScheme rest
  | [] => none

/-- Split a character list on a separator (never returns `[]`). -/
def splitChars (sep : Char) : List Char → List (List Char)
  | [] => [[]]
  | c :: rest =>
    match splitChars sep rest with
    | [] => [[]]
    | g :: gs => if c = sep then [] :: g :: gs else (c :: g) :: gs

/-- A parsed URL: its path segments, as `Url::path_segments` returns them
(the path after the leading `/`, split on `/`; an absent path normalizes
to `/`). -/
structure Url where
  path_segments : Option (List String)
deriving DecidableEq, Repr

/-- Model of `Url::parse`: locate the authority after `"://"`, cut query and
fragment, take the path from the first `/`. -/
def urlParse (s : String) : Except Error Url :=
  match afterScheme s.data with
  | none => .error .urlParseError
  | some rest =>
    let beforeQuery := rest.takeWhile (fun c => !(c == '?' || c == '#'))
    let path := beforeQuery.dropWhile (fun c => c != '/')
    let path := if path.isEmpty then ['/'] else path
    .ok ⟨some ((splitChars '/' (path.drop 1)).map (fun g => String.mk g))⟩

/-- `str::trim_end_matches("/")`: drop every trailing `/`. -/
def trimEndSlashes (s : String) : String :=
  String.mk (List.reverse (List.dropWhile (fun c => c = '/') s.data.reverse))

/-- The binary-name derivation of `download_binary` (vaultvisor.rs lines
158–163): parse the URI with trailing slashes removed, then
`path_segments().and_then(last).and_then(non_empty).ok_or(ClientNameDerivationError)`. -/
def deriveBinName (uri : String) : Except Error String :=
  match urlParse (trimEndSlashes uri) with
  | .error e => .error e
  | .ok url =>
    match url.path_segments with
    | none => .error .clientNameDerivationError
    | some segments =>
      match segments.getLast? with
      | none => .error .clientNameDerivationError
      | some name => if name = "" then .error .clientNameDerivationError else .ok name

/-! ## The supervisor operations (vaultvisor.rs lines 142–206) -/

/-- `Vaultvisor::download_binary` (lines 156–183): derive the name, create
(or truncate) the file, fetch the bytes, write them, chmod `0o700`, then
record the `DownloadedRelease`.  Each `?` failure returns with the mutations
made so far kept. -/
def download_binary (cfg : Config) (io : IoEnv) (release : ClientRelease) (s : St) : Res Unit :=
  match deriveBinName release.uri with
  | .error e => .err e s
  | .ok bin_name =>
    let bin_path := joinPath cfg.download_path bin_name
    if io.createOk then
      -- `File::create` truncates; an existing file keeps its mode.
      let mode0 := match fsGet s.fs bin_path with
        | some f => f.mode
        | none => io.createMode
      let s1 : St := { s with fs := fsSet s.fs bin_path ⟨[], mode0⟩ }
      match io.fetch release.uri with
      | .error e => .err e s1
      | .ok bytes =>
        if io.copyOk then
          let s2 : St := { s1 with fs := fsSet s1.fs bin_path ⟨bytes, mode0⟩ }
          if io.chmodOk then
            let s3 : St := { s2 with fs := fsSet s2.fs bin_path ⟨bytes, 0o700⟩ }
            .ok () { s3 with
              downloaded_release := some ⟨release, bin_path, bin_name⟩,
              events := s3.events ++ [.download] }
          else .err .ioError s2
        else .err .ioError s1
    else .err .ioError s

/-- `Vaultvisor::delete_downloaded_release` (lines 185–191). -/
def delete_downloaded_release (io : IoEnv) (s : St) : Res Unit :=
  match s.downloaded_release with
  | none => .err .noDownloadedRelease s
  | some release =>
    if io.removeOk then
      .ok () { s with
        fs := fsErase s.fs release.path,
        downloaded_release := none,
        events := s.events ++ [.delete] }
    else .err .ioError s

/-- `Vaultvisor::run_binary` (lines 142–154): refuse when a child exists,
require a downloaded release, spawn `./bin_name` with the configured args. -/
def run_binary (cfg : Config) (io : IoEnv) (s : St) : Res Unit :=
  if s.child_proc.isSome then .err .childProcessExists s
  else
    match s.downloaded_release with
    | none => .err .noDownloadedRelease s
    | some downloaded_release =>
      if io.spawnOk then
        .ok () { s with
          child_proc := some ⟨io.newPid, "./" ++ downloaded_release.bin_name, cfg.vault_args⟩,
          events := s.events ++ [.spawn] }
      else .err .ioError s

/-- `Vaultvisor::terminate_proc_and_wait` (lines 193–206): require a child;
convert the pid (`?`), `signal::kill` SIGTERM (`?`), then `wait()` — whose
outcome, exit code or error, is only logged — and clear the child slot. -/
def terminate_proc_and_wait (io : IoEnv) (s : St) : Res Unit :=
  match s.child_proc with
  | none => .err .noChildProcess s
  | some _child =>
    if io.pidFits then
      if io.killOk then
        match io.waitResult with
        | .ok _exit_code =>
          .ok () { s with child_proc := none, events := s.events ++ [.terminate] }
        | .error _ =>
          .ok () { s with child_proc := none, events := s.events ++ [.terminate] }
      else .err .nixError s
    else .err .integerConversionError s

/-! ## The runner loop (vaultvisor.rs lines 83–109) -/

/-- One tick's external inputs: the outcome of `try_get_release(false)` —
which abstracts the RPC read at `compute_storage_key(PARACHAIN_MODULE,
CURRENT_RELEASE_STORAGE_ITEM)` plus SCALE decoding — and the OS outcomes for
whatever the tick does. -/
structure TickEnv where
  chainRead : Except Error (Option ClientRelease)
  io : IoEnv

/-- The body of the upgrade branch (lines 95–104): terminate the child,
delete the old release, download the new one, run it — each `?` aborting the
sequence. -/
def upgradeSequence (cfg : Config) (io : IoEnv) (release : ClientRelease) (s : St) : Res Unit :=
  match terminate_proc_and_wait io s with
  | .err e s1 => .err e s1
  | .ok _ s1 =>
    match delete_downloaded_release io s1 with
    | .err e s2 => .err e s2
    | .ok _ s2 =>
      match download_binary cfg io release s2 with
      | .err e s3 => .err e s3
      | .ok _ s3 => run_binary cfg io s3

/-- One iteration of the loop (lines 90–107): read the chain; on a release,
compare URIs and upgrade when they differ; otherwise (equal URI, or no
release on chain) do nothing until the next `BLOCK_TIME` sleep. -/
def tick (cfg : Config) (env : TickEnv) (s : St) : Res Unit :=
  match env.chainRead with
  | .error e => .err e s
  | .ok none => .ok () s
  | .ok (some new_release) =>
    match s.downloaded_release with
    | none => .err .noDownloadedRelease s
    | some downloaded_release =>
      if new_release.uri ≠ downloaded_release.release.uri then
        upgradeSequence cfg env.io new_release s
      else .ok () s

/-- Finitely many iterations of the infinite loop, driven by a list of tick
environments; a failing tick propagates its error out of `run` as `?` does. -/
def runTicks (cfg : Config) : List TickEnv → St → Res Unit
  | [], s => .ok () s
  | env :: rest, s =>
    match tick cfg env s with
    | .err e s1 => .err e s1
    | .ok _ s1 => runTicks cfg rest s1

/-- Result of `Vaultvisor::run`, which can also abort by panicking (the
`.expect(..)` on line 84). -/
inductive RRes (α : Type) where
  | ok (a : α) (s : St)
  | err (e : Error) (s : St)
  | panicked (msg : String) (s : St)
deriving DecidableEq, Repr

/-- `Vaultvisor::run` (lines 83–109): read the current release — `?` on the
RPC error, `.expect("No current release")` on absence — download it, run it,
then loop. -/
def run (cfg : Config) (startEnv : TickEnv) (loopEnvs : List TickEnv) (s : St) : RRes Unit :=
  match startEnv.chainRead with
  | .error e => .err e s
  | .ok none => .panicked "No current release" s
  | .ok (some release) =>
    match download_binary cfg startEnv.io release s with
    | .err e s1 => .err e s1
    | .ok _ s1 =>
      match run_binary cfg startEnv.io s1 with
      | .err e s2 => .err e s2
      | .ok _ s2 =>
        match runTicks cfg loopEnvs s2 with
        | .err e s3 => .err e s3
        | .ok _ s3 => .ok () s3

/-- The POSIX resolution of a program string containing a `/` (as
`Command::new("./bin")` produces): interpreted relative to the process
working directory unless absolute. -/
def resolveProgram (cwd program : String) : String :=
  match program.data with
  | '/' :: _ => program
  | '.' :: '/' :: rest => joinPath cwd (String.mk rest)
  | _ => joinPath cwd program

/-- A fresh supervisor state over a given initial filesystem
(`Vaultvisor::new`: no child, no downloaded release). -/
def initSt (fs0 : List (String × FsFile)) : St := ⟨none, none, fs0, []⟩

/-! ## Trace predicates -/

def isSpawn : Event → Bool
  | .spawn => true
  | _ => false

def isTerm : Event → Bool
  | .terminate => true
  | _ => false

/-- Scan an event trace; `armed` records that a spawn has happened with no
terminate since.  The scan returns `true` exactly when no spawn happens while
armed — i.e. between any two consecutive spawn events a terminate occurs. -/
def sepScan : Bool → List Event → Bool
  | _, [] => true
  | armed, e :: rest =>
    if isSpawn e then !armed && sepScan true rest
    else if isTerm e then sepScan false rest
    else sepScan armed rest

/-- The armed flag after scanning a trace. -/
def armedAfter : Bool → List Event → Bool
  | a, [] => a
  | a, e :: rest => armedAfter (if isSpawn e then true else if isTerm e then false else a) rest

/-- The state carried by a `Res`, in both the success and the error case. -/
def resSt : Res Unit → St
  | .ok _ s => s
  | .err _ s => s

/-- The state carried by an `RRes`. -/
def rresSt : RRes Unit → St
  | .ok _ s => s
  | .err _ s => s
  | .panicked _ s => s

/-- Whether an `RRes` is an `Error` return (as opposed to success or a
panic). -/
def rresIsErr : RRes Unit → Bool
  | .err _ _ => true
  | _ => false

/-! ## Concrete fixtures used by witnesses and counterexamples -/

/-- An environment in which every OS call succeeds and every fetch yields
`[1, 2, 3]`. -/
def happyIo : IoEnv :=
  { fetch := fun _ => .ok [1, 2, 3]
    createOk := true, copyOk := true, chmodOk := true, removeOk := true
    spawnOk := true, newPid := 42, createMode := 0o644
    pidFits := true, killOk := true, waitResult := .ok 0 }

/-- The default configuration of the runner (`--download-path .`), with one
pass-through client argument. -/
def defaultCfg : Config := ⟨["--keyname=alice"], ".", "/home/user"⟩

/-! # Claims -/

/-- Helper validation of the `twox_128` model against a well-known chain
constant: the storage prefix of the `System` pallet. -/
theorem twox_128_System :
    hexEncode (twox_128 (utf8Bytes "System")) = "26aa394eea5630e07c48ae0c9558cef7" := by
  rfl

/-- C9: `compute_storage_key ("VaultRegistry", "CurrentClientRelease")` is
the 66-character string `"0x"` followed by the lowercase hex encoding of
exactly `twox128(module) ++ twox128(item)` (16 bytes each), with nothing
appended. -/
theorem claim9_compute_storage_key :
    compute_storage_key "VaultRegistry" "CurrentClientRelease"
      = "0x" ++ hexEncode (twox_128 (utf8Bytes "VaultRegistry")
          ++ twox_128 (utf8Bytes "CurrentClientRelease"))
    ∧ compute_storage_key "VaultRegistry" "CurrentClientRelease"
      = "0x8402aaa79721798ff725d48776181a4428c2fc0938165431e2fa3fc50f072550"
    ∧ (compute_storage_key "VaultRegistry" "CurrentClientRelease").length = 66
    ∧ (twox_128 (utf8Bytes "VaultRegistry")).length = 16
    ∧ (twox_128 (utf8Bytes "CurrentClientRelease")).length = 16
    ∧ (((compute_storage_key "VaultRegistry" "CurrentClientRelease").drop 2).data.all
        (fun c => c ∈ "0123456789abcdef".data)) = true := by
  exact ⟨rfl, rfl, rfl, rfl, rfl, by decide⟩

/-- C3 (amended): the child check comes first, so `ChildProcessExists` is
returned whenever a child is recorded — including when no release is
recorded; `NoDownloadedRelease` is returned when no child is recorded and no
release is recorded; both error cases (and a failing spawn) return the state
unchanged; when both preconditions hold and the spawn succeeds, the child
handle is recorded. -/
theorem claim3_run_binary_preconditions (cfg : Config) (io : IoEnv) (s : St) :
    (∀ c, s.child_proc = some c → run_binary cfg io s = .err .childProcessExists s)
    ∧ (s.child_proc = none → s.downloaded_release = none →
        run_binary cfg io s = .err .noDownloadedRelease s)
    ∧ (∀ dr, s.child_proc = none → s.downloaded_release = some dr →
        (io.spawnOk = true →
          run_binary cfg io s = .ok () { s with
            child_proc := some ⟨io.newPid, "./" ++ dr.bin_name, cfg.vault_args⟩,
            events := s.events ++ [.spawn] })
        ∧ (io.spawnOk = false → run_binary cfg io s = .err .ioError s)) := by
  refine ⟨fun c hc => ?_, fun h1 h2 => ?_, fun dr h1 h2 => ⟨fun hs => ?_, fun hs => ?_⟩⟩
  · simp [run_binary, hc]
  · simp [run_binary, h1, h2]
  · simp [run_binary, h1, h2, hs]
  · simp [run_binary, h1, h2, hs]

/-- C3 counterexample: at a state with a recorded child and no downloaded
release, `run_binary` returns `ChildProcessExists`, not `NoDownloadedRelease`
— refuting "returns NoDownloadedRelease whenever no downloaded release is
recorded". -/
theorem claim3_counterexample :
    run_binary defaultCfg happyIo ⟨some ⟨7, "./vault", []⟩, none, [], []⟩
      = .err .childProcessExists ⟨some ⟨7, "./vault", []⟩, none, [], []⟩
    ∧ Error.childProcessExists ≠ Error.noDownloadedRelease := by
  exact ⟨rfl, by decide⟩

/-- C3 witness: the amended theorem applied at concrete states. -/
theorem claim3_witness :
    run_binary defaultCfg happyIo (initSt []) = .err .noDownloadedRelease (initSt [])
    ∧ run_binary defaultCfg happyIo ⟨none, some ⟨⟨"https://host/vault", 0⟩, "./vault", "vault"⟩, [], []⟩
      = .ok () ⟨some ⟨42, "./vault", ["--keyname=alice"]⟩,
          some ⟨⟨"https://host/vault", 0⟩, "./vault", "vault"⟩, [], [.spawn]⟩ := by
  exact ⟨(claim3_run_binary_preconditions defaultCfg happyIo (initSt [])).2.1 rfl rfl,
    ((claim3_run_binary_preconditions defaultCfg happyIo
        ⟨none, some ⟨⟨"https://host/vault", 0⟩, "./vault", "vault"⟩, [], []⟩).2.2
      ⟨⟨"https://host/vault", 0⟩, "./vault", "vault"⟩ rfl rfl).1 rfl⟩

/-- Resolving the cwd-relative program string `./bn` yields `cwd/bn`. -/
theorem resolveProgram_dot_slash (cwd bn : String) :
    resolveProgram cwd ("./" ++ bn) = joinPath cwd bn := by
  cases bn with
  | mk l => rfl

/-- C4 (amended): when its preconditions hold, `run_binary` launches the
program string `"./" ++ bin_name` — resolved by the OS relative to the
process working directory, not the download directory — passing the
preconfigured CLI args verbatim. -/
theorem claim4_run_binary_program (cfg : Config) (io : IoEnv) (s : St)
    (dr : DownloadedRelease) (h1 : s.child_proc = none)
    (h2 : s.downloaded_release = some dr) (h3 : io.spawnOk = true) :
    run_binary cfg io s = .ok () { s with
      child_proc := some ⟨io.newPid, "./" ++ dr.bin_name, cfg.vault_args⟩,
      events := s.events ++ [.spawn] }
    ∧ resolveProgram cfg.cwd ("./" ++ dr.bin_name) = joinPath cfg.cwd dr.bin_name := by
  exact ⟨((claim3_run_binary_preconditions cfg io s).2.2 dr h1 h2).1 h3,
    resolveProgram_dot_slash cfg.cwd dr.bin_name⟩

/-- C4 counterexample: with `download_path = "/opt/dl"` (where
`download_binary` installed `vault`) and cwd `/home/user`, the spawned
program `./vault` resolves to `/home/user/vault`, which is not the installed
path `/opt/dl/vault` — refuting "at a path relative to the download
directory". -/
theorem claim4_counterexample :
    run_binary ⟨[], "/opt/dl", "/home/user"⟩ happyIo
        ⟨none, some ⟨⟨"https://host/vault", 0⟩, "/opt/dl/vault", "vault"⟩,
          [("/opt/dl/vault", ⟨[1, 2, 3], 0o700⟩)], []⟩
      = .ok () ⟨some ⟨42, "./vault", []⟩,
          some ⟨⟨"https://host/vault", 0⟩, "/opt/dl/vault", "vault"⟩,
          [("/opt/dl/vault", ⟨[1, 2, 3], 0o700⟩)], [.spawn]⟩
    ∧ resolveProgram "/home/user" "./vault" = "/home/user/vault"
    ∧ "/home/user/vault" ≠ "/opt/dl/vault" := by
  exact ⟨rfl, rfl, by decide⟩

/-- C4 witness: the amended theorem applied at a concrete state. -/
theorem claim4_witness :
    run_binary defaultCfg happyIo ⟨none, some ⟨⟨"https://host/vlt", 0⟩, "./vlt", "vlt"⟩, [], []⟩
      = .ok () ⟨some ⟨42, "./vlt", ["--keyname=alice"]⟩,
          some ⟨⟨"https://host/vlt", 0⟩, "./vlt", "vlt"⟩, [], [.spawn]⟩
    ∧ resolveProgram "/home/user" "./vlt" = joinPath "/home/user" "vlt" := by
  exact claim4_run_binary_program defaultCfg happyIo
    ⟨none, some ⟨⟨"https://host/vlt", 0⟩, "./vlt", "vlt"⟩, [], []⟩
    ⟨⟨"https://host/vlt", 0⟩, "./vlt", "vlt"⟩ rfl rfl rfl

/-- C7 (amended): `terminate_proc_and_wait` returns `NoChildProcess` when no
child is recorded; with a child, a successful SIGTERM delivery followed by
`wait()` — whatever exit code or error the wait yields — succeeds and clears
the child slot; but a signal-delivery failure (or a pid-conversion failure)
fails the operation and leaves the child slot recorded. -/
theorem claim7_terminate_spec (io : IoEnv) (s : St) :
    (s.child_proc = none → terminate_proc_and_wait io s = .err .noChildProcess s)
    ∧ (∀ c, s.child_proc = some c → io.pidFits = true → io.killOk = true →
        terminate_proc_and_wait io s
          = .ok () { s with child_proc := none, events := s.events ++ [.terminate] })
    ∧ (∀ c, s.child_proc = some c → io.pidFits = true → io.killOk = false →
        terminate_proc_and_wait io s = .err .nixError s)
    ∧ (∀ c, s.child_proc = some c → io.pidFits = false →
        terminate_proc_and_wait io s = .err .integerConversionError s) := by
  refine ⟨fun h => ?_, fun c hc hp hk => ?_, fun c hc hp hk => ?_, fun c hc hp => ?_⟩
  · simp [terminate_proc_and_wait, h]
  · cases hw : io.waitResult <;> simp [terminate_proc_and_wait, hc, hp, hk, hw]
  · simp [terminate_proc_and_wait, hc, hp, hk]
  · simp [terminate_proc_and_wait, hc, hp]

/-- C7 counterexample: with a recorded child and a failing `signal::kill`,
the operation returns an error and the child slot is not cleared — refuting
"signal-delivery failures are logged but do not fail the operation, and the
child slot is cleared to None on return". -/
theorem claim7_counterexample :
    terminate_proc_and_wait { happyIo with killOk := false }
        ⟨some ⟨9, "./vault", []⟩, none, [], []⟩
      = .err .nixError ⟨some ⟨9, "./vault", []⟩, none, [], []⟩
    ∧ (resSt (terminate_proc_and_wait { happyIo with killOk := false }
        ⟨some ⟨9, "./vault", []⟩, none, [], []⟩)).child_proc = some ⟨9, "./vault", []⟩ := by
  exact ⟨rfl, rfl⟩

/-- C7 witness: the amended theorem applied at concrete states, including a
failing `wait()` that still succeeds and clears the slot. -/
theorem claim7_witness :
    terminate_proc_and_wait { happyIo with waitResult := .error () }
        ⟨some ⟨9, "./vault", []⟩, none, [], []⟩
      = .ok () ⟨none, none, [], [.terminate]⟩
    ∧ terminate_proc_and_wait happyIo (initSt []) = .err .noChildProcess (initSt []) := by
  exact ⟨(claim7_terminate_spec { happyIo with waitResult := .error () }
      ⟨some ⟨9, "./vault", []⟩, none, [], []⟩).2.1 ⟨9, "./vault", []⟩ rfl rfl rfl,
    (claim7_terminate_spec happyIo (initSt [])).1 rfl⟩

/-! ## Filesystem and download lemmas -/

/-- Two writes to the same path collapse to the last one. -/
theorem fsSet_fsSet (fs : List (String × FsFile)) (p : String) (a b : FsFile) :
    fsSet (fsSet fs p a) p b = fsSet fs p b := by
  induction fs with
  | nil => simp [fsSet]
  | cons hd tl ih =>
    obtain ⟨q, g⟩ := hd
    by_cases h : q = p <;> simp [fsSet, h, ih]

/-- Reading back a just-written path. -/
theorem fsGet_fsSet (fs : List (String × FsFile)) (p : String) (f : FsFile) :
    fsGet (fsSet fs p f) p = some f := by
  induction fs with
  | nil => simp [fsGet, fsSet]
  | cons hd tl ih =>
    obtain ⟨q, g⟩ := hd
    by_cases h : q = p <;> simp [fsGet, fsSet, h, ih]

/-- Any failing `download_binary` leaves `downloaded_release`, `child_proc`
and the event trace unchanged (the filesystem may have been mutated). -/
theorem download_binary_err (cfg : Config) (io : IoEnv) (r : ClientRelease)
    (s : St) (e : Error) (s1 : St)
    (h : download_binary cfg io r s = .err e s1) :
    s1.downloaded_release = s.downloaded_release ∧ s1.child_proc = s.child_proc
      ∧ s1.events = s.events := by
  unfold download_binary at h
  repeat' split at h
  all_goals cases h
  all_goals exact ⟨rfl, rfl, rfl⟩

/-- A successful `download_binary` wrote exactly the fetched bytes at
`download_path/bin_name` with mode `0o700` and recorded the matching
`DownloadedRelease`. -/
theorem download_binary_ok (cfg : Config) (io : IoEnv) (r : ClientRelease)
    (s s1 : St) (h : download_binary cfg io r s = .ok () s1) :
    ∃ bn bytes, deriveBinName r.uri = .ok bn
      ∧ io.fetch r.uri = .ok bytes
      ∧ s1.downloaded_release = some ⟨r, joinPath cfg.download_path bn, bn⟩
      ∧ fsGet s1.fs (joinPath cfg.download_path bn) = some ⟨bytes, 0o700⟩
      ∧ s1.events = s.events ++ [.download]
      ∧ s1.child_proc = s.child_proc := by
  unfold download_binary at h
  repeat' split at h
  all_goals cases h
  case _ bn hbn _ _ bytes hbytes _ _ =>
    exact ⟨bn, bytes, hbn, hbytes, rfl, by simp [fsSet_fsSet, fsGet_fsSet], rfl, rfl⟩

/-- C5: when `download_binary release` succeeds, the file at
`download_path/bin_name` holds exactly the bytes fetched from `release.uri`
(whatever was there before — creation truncates), its mode is `0o700`, and
the recorded `DownloadedRelease` has matching `release`, `path` and
`bin_name` fields. -/
theorem claim5_download_success (cfg : Config) (io : IoEnv) (r : ClientRelease)
    (s s1 : St) (h : download_binary cfg io r s = .ok () s1) :
    ∃ bn bytes, deriveBinName r.uri = .ok bn
      ∧ io.fetch r.uri = .ok bytes
      ∧ s1.downloaded_release = some ⟨r, joinPath cfg.download_path bn, bn⟩
      ∧ fsGet s1.fs (joinPath cfg.download_path bn) = some ⟨bytes, 0o700⟩
      ∧ s1.events = s.events ++ [.download]
      ∧ s1.child_proc = s.child_proc :=
  download_binary_ok cfg io r s s1 h

/-- C5 witness: a concrete successful download over an initially empty
filesystem, with a prior file of the same name truncated in a second run. -/
theorem claim5_witness :
    ∃ bn bytes, deriveBinName "https://host/vault-1.0" = .ok bn
      ∧ happyIo.fetch "https://host/vault-1.0" = .ok bytes
      ∧ (St.mk none (some ⟨⟨"https://host/vault-1.0", 5⟩, "./vault-1.0", "vault-1.0"⟩)
          [("./vault-1.0", ⟨[1, 2, 3], 0o700⟩)] [.download]).downloaded_release
        = some ⟨⟨"https://host/vault-1.0", 5⟩, joinPath defaultCfg.download_path bn, bn⟩
      ∧ fsGet (St.mk none (some ⟨⟨"https://host/vault-1.0", 5⟩, "./vault-1.0", "vault-1.0"⟩)
          [("./vault-1.0", ⟨[1, 2, 3], 0o700⟩)] [.download]).fs
          (joinPath defaultCfg.download_path bn) = some ⟨bytes, 0o700⟩
      ∧ (St.mk none (some ⟨⟨"https://host/vault-1.0", 5⟩, "./vault-1.0", "vault-1.0"⟩)
          [("./vault-1.0", ⟨[1, 2, 3], 0o700⟩)] [.download]).events
        = (initSt []).events ++ [.download]
      ∧ (St.mk none (some ⟨⟨"https://host/vault-1.0", 5⟩, "./vault-1.0", "vault-1.0"⟩)
          [("./vault-1.0", ⟨[1, 2, 3], 0o700⟩)] [.download]).child_proc = (initSt []).child_proc :=
  claim5_download_success defaultCfg happyIo ⟨"https://host/vault-1.0", 5⟩ (initSt []) _ rfl

/-- Stripping one more trailing slash does not change the trim. -/
theorem trimEndSlashes_append_slash (uri : String) :
    trimEndSlashes (uri ++ "/") = trimEndSlashes uri := by
  obtain ⟨l⟩ := uri
  show String.mk _ = String.mk _
  simp [trimEndSlashes]

/-- C6: the binary name is derived after normalizing trailing `/` characters
away; for every URI whose normalized URL has an empty or missing final path
segment, the derivation fails with `ClientNameDerivationError` — and any
derivation failure makes `download_binary` fail leaving the state (hence the
filesystem) untouched; `https://host/` is such a URI; when the final segment
is non-empty it becomes the binary name. -/
theorem claim6_bin_name_derivation :
    (∀ uri, deriveBinName (uri ++ "/") = deriveBinName uri)
    ∧ (∀ cfg io r s e, deriveBinName r.uri = .error e →
        download_binary cfg io r s = .err e s)
    ∧ deriveBinName "https://host/" = .error .clientNameDerivationError
    ∧ (∀ uri segments, urlParse (trimEndSlashes uri) = .ok ⟨some segments⟩ →
        (segments.getLast? = none ∨ segments.getLast? = some "") →
        deriveBinName uri = .error .clientNameDerivationError)
    ∧ (∀ uri, urlParse (trimEndSlashes uri) = .ok ⟨none⟩ →
        deriveBinName uri = .error .clientNameDerivationError)
    ∧ (∀ uri segments name, urlParse (trimEndSlashes uri) = .ok ⟨some segments⟩ →
        segments.getLast? = some name → name ≠ "" → deriveBinName uri = .ok name) := by
  refine ⟨fun uri => ?_, fun cfg io r s e h => ?_, rfl, fun uri segments h1 h2 => ?_,
    fun uri h1 => ?_, fun uri segments name h1 h2 h3 => ?_⟩
  · simp [deriveBinName, trimEndSlashes_append_slash]
  · simp [download_binary, h]
  · rcases h2 with h2 | h2 <;> simp [deriveBinName, h1, h2]
  · simp [deriveBinName, h1]
  · simp [deriveBinName, h1, h2, h3]

/-- C6 witness: the compound theorem applied at concrete URIs — a trailing
slash is normalized away, the empty-path URI fails with the state left
exactly as it was, a URI whose final segment is empty while an earlier one
is not (`https://host/a//?q=1`) also fails, and a non-empty final segment
succeeds. -/
theorem claim6_witness :
    deriveBinName ("https://host/vault" ++ "/") = deriveBinName "https://host/vault"
    ∧ download_binary defaultCfg happyIo ⟨"https://host/", 0⟩ (initSt [])
      = .err .clientNameDerivationError (initSt [])
    ∧ deriveBinName "https://host/a//?q=1" = .error .clientNameDerivationError
    ∧ deriveBinName "https://host/a/vault-1.0" = .ok "vault-1.0" := by
  exact ⟨claim6_bin_name_derivation.1 "https://host/vault",
    claim6_bin_name_derivation.2.1 defaultCfg happyIo ⟨"https://host/", 0⟩ (initSt [])
      .clientNameDerivationError rfl,
    claim6_bin_name_derivation.2.2.2.1 "https://host/a//?q=1" ["a", "", ""] rfl (Or.inr rfl),
    claim6_bin_name_derivation.2.2.2.2.2 "https://host/a/vault-1.0" ["a", "vault-1.0"]
      "vault-1.0" rfl rfl (by decide)⟩

/-- An environment whose HTTP GET fails. -/
def fetchFailIo : IoEnv := { happyIo with fetch := fun _ => .error .httpError }

/-- A state holding an installed `vault` binary with contents `[9, 9, 9]`. -/
def oldVaultSt : St :=
  ⟨none, some ⟨⟨"https://host/vault", 0⟩, "./vault", "vault"⟩,
    [("./vault", ⟨[9, 9, 9], 0o700⟩)], []⟩

/-- `oldVaultSt` after a failed re-download truncated the file. -/
def truncVaultSt : St :=
  ⟨none, some ⟨⟨"https://host/vault", 0⟩, "./vault", "vault"⟩,
    [("./vault", ⟨[], 0o700⟩)], []⟩

/-- C10: whenever `download_binary` fails, `downloaded_release` keeps its
previous value; yet the destination file may already have been truncated —
concretely, a failing re-download of a same-named binary leaves the old
record pointing at a now-empty file. -/
theorem claim10_download_failure_keeps_record :
    (∀ cfg io r s e s1, download_binary cfg io r s = .err e s1 →
      s1.downloaded_release = s.downloaded_release)
    ∧ download_binary defaultCfg fetchFailIo ⟨"https://host2/vault", 1⟩ oldVaultSt
      = .err .httpError truncVaultSt
    ∧ truncVaultSt.downloaded_release = oldVaultSt.downloaded_release
    ∧ fsGet oldVaultSt.fs "./vault" = some ⟨[9, 9, 9], 0o700⟩
    ∧ fsGet truncVaultSt.fs "./vault" = some ⟨[], 0o700⟩ := by
  exact ⟨fun cfg io r s e s1 h => (download_binary_err cfg io r s e s1 h).1,
    rfl, rfl, rfl, rfl⟩

/-- C10 witness: the universally quantified part applied at the concrete
failing re-download. -/
theorem claim10_witness :
    truncVaultSt.downloaded_release = oldVaultSt.downloaded_release := by
  exact claim10_download_failure_keeps_record.1 defaultCfg fetchFailIo
    ⟨"https://host2/vault", 1⟩ oldVaultSt .httpError truncVaultSt rfl

/-- A steady state: child running, `vault` installed from
`https://host/vault`. -/
def runningSt : St :=
  ⟨some ⟨42, "./vault", ["--keyname=alice"]⟩,
    some ⟨⟨"https://host/vault", 0⟩, "./vault", "vault"⟩,
    [("./vault", ⟨[1, 2, 3], 0o700⟩)], []⟩

/-- C1: with a downloaded release recorded, a tick runs the upgrade sequence
(terminate, delete, download, run) exactly when the newly read release's
`uri` differs from the downloaded one's; when the URIs are equal (whatever
the code hashes) or the chain read yields no release, the tick returns the
state — child and downloaded-release record included — unchanged. -/
theorem claim1_tick_upgrade_iff (cfg : Config) (env : TickEnv) (s : St)
    (dr : DownloadedRelease) (h : s.downloaded_release = some dr) :
    (∀ r, env.chainRead = .ok (some r) →
      ((r.uri ≠ dr.release.uri → tick cfg env s = upgradeSequence cfg env.io r s)
       ∧ (r.uri = dr.release.uri → tick cfg env s = .ok () s)))
    ∧ (env.chainRead = .ok none → tick cfg env s = .ok () s) := by
  refine ⟨fun r hr => ⟨fun hne => ?_, fun heq => ?_⟩, fun hn => ?_⟩
  · simp [tick, hr, h, hne]
  · simp [tick, hr, h, heq]
  · simp [tick, hn]

/-- C1 witness: at the steady state, a tick reading the same URI with a
different code hash is a no-op, a tick reading no release is a no-op, and a
tick reading a different URI runs the upgrade sequence. -/
theorem claim1_witness :
    tick defaultCfg ⟨.ok (some ⟨"https://host/vault", 7⟩), happyIo⟩ runningSt
      = .ok () runningSt
    ∧ tick defaultCfg ⟨.ok none, happyIo⟩ runningSt = .ok () runningSt
    ∧ tick defaultCfg ⟨.ok (some ⟨"https://host/vault-2", 0⟩), happyIo⟩ runningSt
      = upgradeSequence defaultCfg happyIo ⟨"https://host/vault-2", 0⟩ runningSt := by
  refine ⟨((claim1_tick_upgrade_iff defaultCfg ⟨.ok (some ⟨"https://host/vault", 7⟩), happyIo⟩
      runningSt ⟨⟨"https://host/vault", 0⟩, "./vault", "vault"⟩ rfl).1
      ⟨"https://host/vault", 7⟩ rfl).2 rfl,
    (claim1_tick_upgrade_iff defaultCfg ⟨.ok none, happyIo⟩
      runningSt ⟨⟨"https://host/vault", 0⟩, "./vault", "vault"⟩ rfl).2 rfl,
    ((claim1_tick_upgrade_iff defaultCfg ⟨.ok (some ⟨"https://host/vault-2", 0⟩), happyIo⟩
      runningSt ⟨⟨"https://host/vault", 0⟩, "./vault", "vault"⟩ rfl).1
      ⟨"https://host/vault-2", 0⟩ rfl).1 (by decide)⟩

/-- C8 (amended): if at startup the chain has no current release, `run`
aborts at once — by panicking with the message of the `.expect` call, not by
returning a typed error — with the state (filesystem, child slot) exactly as
it was: nothing written, nothing spawned. -/
theorem claim8_no_current_release (cfg : Config) (startEnv : TickEnv)
    (loopEnvs : List TickEnv) (s : St) (h : startEnv.chainRead = .ok none) :
    run cfg startEnv loopEnvs s = .panicked "No current release" s := by
  simp [run, h]

/-- C8 counterexample: on an empty current-release slot the startup outcome
is a panic, not an `Error` return — refuting "fails ... with the error
NoCurrentRelease" (no such error value is produced; the state is indeed left
untouched). -/
theorem claim8_counterexample :
    run defaultCfg ⟨.ok none, happyIo⟩ [] (initSt [])
      = .panicked "No current release" (initSt [])
    ∧ rresIsErr (run defaultCfg ⟨.ok none, happyIo⟩ [] (initSt [])) = false := by
  exact ⟨rfl, rfl⟩

/-- C8 witness: the amended theorem applied at a concrete empty-chain
startup. -/
theorem claim8_witness :
    run defaultCfg ⟨.ok none, happyIo⟩ [⟨.ok none, happyIo⟩] (initSt [("x", ⟨[1], 0o644⟩)])
      = .panicked "No current release" (initSt [("x", ⟨[1], 0o644⟩)]) := by
  exact claim8_no_current_release defaultCfg ⟨.ok none, happyIo⟩ [⟨.ok none, happyIo⟩]
    (initSt [("x", ⟨[1], 0o644⟩)]) rfl

/-! ## Event-trace lemmas for the runner loop -/

/-- A failing `terminate_proc_and_wait` leaves the state untouched. -/
theorem terminate_err_state (io : IoEnv) (s : St) (e : Error) (s1 : St)
    (h : terminate_proc_and_wait io s = .err e s1) : s1 = s := by
  unfold terminate_proc_and_wait at h
  repeat' split at h
  all_goals cases h
  all_goals rfl

/-- A successful `terminate_proc_and_wait` appends exactly one terminate
event. -/
theorem terminate_ok_events (io : IoEnv) (s : St) (s1 : St)
    (h : terminate_proc_and_wait io s = .ok () s1) :
    s1.events = s.events ++ [.terminate] := by
  unfold terminate_proc_and_wait at h
  repeat' split at h
  all_goals cases h
  all_goals rfl

/-- A failing `delete_downloaded_release` leaves the state untouched. -/
theorem delete_err_state (io : IoEnv) (s : St) (e : Error) (s1 : St)
    (h : delete_downloaded_release io s = .err e s1) : s1 = s := by
  unfold delete_downloaded_release at h
  repeat' split at h
  all_goals cases h
  all_goals rfl

/-- A successful `delete_downloaded_release` appends exactly one delete
event. -/
theorem delete_ok_events (io : IoEnv) (s : St) (s1 : St)
    (h : delete_downloaded_release io s = .ok () s1) :
    s1.events = s.events ++ [.delete] := by
  unfold delete_downloaded_release at h
  repeat' split at h
  all_goals cases h
  all_goals rfl

/-- A failing `run_binary` leaves the state untouched. -/
theorem run_binary_err_state (cfg : Config) (io : IoEnv) (s : St) (e : Error) (s1 : St)
    (h : run_binary cfg io s = .err e s1) : s1 = s := by
  unfold run_binary at h
  repeat' split at h
  all_goals cases h
  all_goals rfl

/-- A successful `run_binary` appends exactly one spawn event. -/
theorem run_binary_ok_events (cfg : Config) (io : IoEnv) (s : St) (s1 : St)
    (h : run_binary cfg io s = .ok () s1) :
    s1.events = s.events ++ [.spawn] := by
  unfold run_binary at h
  repeat' split at h
  all_goals cases h
  all_goals rfl

/-- The event block appended by one upgrade sequence: the full ordered block
on success, one of its proper front parts when a step failed. -/
theorem upgradeSequence_events (cfg : Config) (io : IoEnv) (r : ClientRelease) (s : St) :
    (∃ s1, upgradeSequence cfg io r s = .ok () s1
      ∧ s1.events = s.events ++ [.terminate, .delete, .download, .spawn])
    ∨ (∃ e s1, upgradeSequence cfg io r s = .err e s1
      ∧ (s1.events = s.events ∨ s1.events = s.events ++ [.terminate]
        ∨ s1.events = s.events ++ [.terminate, .delete]
        ∨ s1.events = s.events ++ [.terminate, .delete, .download])) := by
  cases h1 : terminate_proc_and_wait io s with
  | err e s1 =>
    right
    exact ⟨e, s1, by simp [upgradeSequence, h1],
      Or.inl (by rw [terminate_err_state io s e s1 h1])⟩
  | ok a1 s1 =>
    cases a1
    have he1 := terminate_ok_events io s s1 h1
    cases h2 : delete_downloaded_release io s1 with
    | err e s2 =>
      right
      refine ⟨e, s2, by simp [upgradeSequence, h1, h2], Or.inr (Or.inl ?_)⟩
      rw [delete_err_state io s1 e s2 h2, he1]
    | ok a2 s2 =>
      cases a2
      have he2 := delete_ok_events io s1 s2 h2
      cases h3 : download_binary cfg io r s2 with
      | err e s3 =>
        right
        refine ⟨e, s3, by simp [upgradeSequence, h1, h2, h3], Or.inr (Or.inr (Or.inl ?_))⟩
        rw [(download_binary_err cfg io r s2 e s3 h3).2.2, he2, he1]
        simp
      | ok a3 s3 =>
        cases a3
        obtain ⟨-, -, -, -, -, -, he3, -⟩ := download_binary_ok cfg io r s2 s3 h3
        cases h4 : run_binary cfg io s3 with
        | err e s4 =>
          right
          refine ⟨e, s4, by simp [upgradeSequence, h1, h2, h3, h4],
            Or.inr (Or.inr (Or.inr ?_))⟩
          rw [run_binary_err_state cfg io s3 e s4 h4, he3, he2, he1]
          simp
        | ok a4 s4 =>
          cases a4
          left
          refine ⟨s4, by simp [upgradeSequence, h1, h2, h3, h4], ?_⟩
          rw [run_binary_ok_events cfg io s3 s4 h4, he3, he2, he1]
          simp

/-- The event blocks a single tick can append. -/
def tickBlock (blk : List Event) : Prop :=
  blk = [] ∨ blk = [.terminate] ∨ blk = [.terminate, .delete]
    ∨ blk = [.terminate, .delete, .download]
    ∨ blk = [.terminate, .delete, .download, .spawn]

/-- Every tick appends one `tickBlock` to the event trace, whether it
succeeds or fails. -/
theorem tick_events (cfg : Config) (env : TickEnv) (s : St) :
    ∃ blk, tickBlock blk ∧ (resSt (tick cfg env s)).events = s.events ++ blk := by
  cases hr : env.chainRead with
  | error e => exact ⟨[], Or.inl rfl, by simp [tick, hr, resSt]⟩
  | ok o =>
    cases o with
    | none => exact ⟨[], Or.inl rfl, by simp [tick, hr, resSt]⟩
    | some r =>
      cases hd : s.downloaded_release with
      | none => exact ⟨[], Or.inl rfl, by simp [tick, hr, hd, resSt]⟩
      | some dr =>
        by_cases hne : r.uri = dr.release.uri
        · exact ⟨[], Or.inl rfl, by simp [tick, hr, hd, hne, resSt]⟩
        · have htick : tick cfg env s = upgradeSequence cfg env.io r s := by
            simp [tick, hr, hd, hne]
          rw [htick]
          rcases upgradeSequence_events cfg env.io r s with
            ⟨s1, hu, he⟩ | ⟨e, s1, hu, he⟩
          · exact ⟨[.terminate, .delete, .download, .spawn],
              Or.inr (Or.inr (Or.inr (Or.inr rfl))), by rw [hu]; exact he⟩
          · rcases he with he | he | he | he
            · exact ⟨[], Or.inl rfl, by rw [hu]; simpa [resSt] using he⟩
            · exact ⟨[.terminate], Or.inr (Or.inl rfl), by rw [hu]; exact he⟩
            · exact ⟨[.terminate, .delete], Or.inr (Or.inr (Or.inl rfl)),
                by rw [hu]; exact he⟩
            · exact ⟨[.terminate, .delete, .download],
                Or.inr (Or.inr (Or.inr (Or.inl rfl))), by rw [hu]; exact he⟩

/-- `sepScan` splits over an append through `armedAfter`. -/
theorem sepScan_append (xs : List Event) : ∀ (a : Bool) (ys : List Event),
    sepScan a (xs ++ ys) = (sepScan a xs && sepScan (armedAfter a xs) ys) := by
  induction xs with
  | nil => intro a ys; simp [sepScan, armedAfter]
  | cons e rest ih =>
    intro a ys
    cases hse : isSpawn e with
    | false =>
      cases hst : isTerm e with
      | false => simp [sepScan, armedAfter, hse, hst, ih]
      | true => simp [sepScan, armedAfter, hse, hst, ih]
    | true => simp [sepScan, armedAfter, hse, ih, Bool.and_assoc]

/-- Any tick block scans clean from any armed state (a nonempty block starts
with a terminate). -/
theorem sepScan_tickBlock (b : Bool) (blk : List Event) (h : tickBlock blk) :
    sepScan b blk = true := by
  rcases h with h | h | h | h | h
  all_goals subst h
  all_goals cases b
  all_goals rfl

/-- Ticks preserve a clean scan, including on the error exit. -/
theorem runTicks_sepScan (cfg : Config) : ∀ (envs : List TickEnv) (s : St),
    sepScan false s.events = true →
    sepScan false (resSt (runTicks cfg envs s)).events = true := by
  intro envs
  induction envs with
  | nil => intro s hs; exact hs
  | cons env rest ih =>
    intro s hs
    obtain ⟨blk, hblk, he⟩ := tick_events cfg env s
    cases ht : tick cfg env s with
    | err e s1 =>
      have hrun : runTicks cfg (env :: rest) s = .err e s1 := by
        simp [runTicks, ht]
      have he1 : s1.events = s.events ++ blk := by rw [ht] at he; exact he
      rw [hrun]
      show sepScan false s1.events = true
      rw [he1, sepScan_append, hs, Bool.true_and]
      exact sepScan_tickBlock _ blk hblk
    | ok a s1 =>
      cases a
      have hrun : runTicks cfg (env :: rest) s = runTicks cfg rest s1 := by
        simp [runTicks, ht]
      have he1 : s1.events = s.events ++ blk := by rw [ht] at he; exact he
      rw [hrun]
      apply ih
      rw [he1, sepScan_append, hs, Bool.true_and]
      exact sepScan_tickBlock _ blk hblk

/-- The whole run — startup download and spawn, then the loop — scans clean
from a fresh state. -/
theorem run_sepScan (cfg : Config) (startEnv : TickEnv) (loopEnvs : List TickEnv)
    (fs0 : List (String × FsFile)) :
    sepScan false (rresSt (run cfg startEnv loopEnvs (initSt fs0))).events = true := by
  cases hr : startEnv.chainRead with
  | error e => simp [run, hr, rresSt, initSt, sepScan]
  | ok o =>
    cases o with
    | none => simp [run, hr, rresSt, initSt, sepScan]
    | some release =>
      cases hd : download_binary cfg startEnv.io release (initSt fs0) with
      | err e s1 =>
        have h1 : s1.events = [] := (download_binary_err _ _ _ _ _ _ hd).2.2
        have hrun : run cfg startEnv loopEnvs (initSt fs0) = .err e s1 := by
          simp [run, hr, hd]
        rw [hrun]
        show sepScan false s1.events = true
        rw [h1]
        rfl
      | ok a s1 =>
        cases a
        obtain ⟨-, -, -, -, -, -, h1, -⟩ := download_binary_ok _ _ _ _ _ hd
        have h1' : s1.events = [.download] := by simpa [initSt] using h1
        cases hrb : run_binary cfg startEnv.io s1 with
        | err e s2 =>
          have hrun : run cfg startEnv loopEnvs (initSt fs0) = .err e s2 := by
            simp [run, hr, hd, hrb]
          rw [hrun]
          show sepScan false s2.events = true
          rw [run_binary_err_state _ _ _ _ _ hrb, h1']
          rfl
        | ok b s2 =>
          cases b
          have h2 : s2.events = [.download, .spawn] := by
            rw [run_binary_ok_events _ _ _ _ hrb, h1']
            rfl
          have hticks := runTicks_sepScan cfg loopEnvs s2 (by rw [h2]; rfl)
          cases hrt : runTicks cfg loopEnvs s2 with
          | err e s3 =>
            have hrun : run cfg startEnv loopEnvs (initSt fs0) = .err e s3 := by
              simp [run, hr, hd, hrb, hrt]
            rw [hrun]
            rw [hrt] at hticks
            exact hticks
          | ok c s3 =>
            cases c
            have hrun : run cfg startEnv loopEnvs (initSt fs0) = .ok () s3 := by
              simp [run, hr, hd, hrb, hrt]
            rw [hrun]
            rw [hrt] at hticks
            exact hticks

/-- If a clean scan is armed, the stretch before the next spawn contains a
terminate. -/
theorem sepScan_armed_spawn : ∀ (l2 l3 : List Event),
    sepScan true (l2 ++ .spawn :: l3) = true →
    (∀ e ∈ l2, isSpawn e = false) → ∃ e ∈ l2, isTerm e = true := by
  intro l2
  induction l2 with
  | nil =>
    intro l3 h _
    exact absurd h (by simp [sepScan, isSpawn])
  | cons e rest ih =>
    intro l3 h hns
    cases hst : isTerm e
    · have hse : isSpawn e = false := hns e (List.mem_cons_self e rest)
      have h1 : sepScan true (rest ++ .spawn :: l3) = true := by
        simpa [sepScan, hse, hst] using h
      obtain ⟨x, hx, hxt⟩ := ih l3 h1 (fun x hx => hns x (List.mem_cons_of_mem e hx))
      exact ⟨x, List.mem_cons_of_mem e hx, hxt⟩
    · exact ⟨e, List.mem_cons_self e rest, hst⟩

/-- In any trace scanning clean, between two spawn events with no spawn in
between there is a terminate. -/
theorem sepScan_between : ∀ (l1 : List Event) (a : Bool) (l2 l3 : List Event),
    sepScan a (l1 ++ .spawn :: l2 ++ .spawn :: l3) = true →
    (∀ e ∈ l2, isSpawn e = false) → ∃ e ∈ l2, isTerm e = true := by
  intro l1
  induction l1 with
  | nil =>
    intro a l2 l3 h hns
    have h1 : a = false ∧ sepScan true (l2 ++ .spawn :: l3) = true := by
      simpa [sepScan, isSpawn] using h
    exact sepScan_armed_spawn l2 l3 h1.2 hns
  | cons e rest ih =>
    intro a l2 l3 h hns
    cases hse : isSpawn e with
    | false =>
      cases hst : isTerm e with
      | false => exact ih a l2 l3 (by simpa [sepScan, hse, hst] using h) hns
      | true => exact ih false l2 l3 (by simpa [sepScan, hse, hst] using h) hns
    | true =>
      have h1 : a = false ∧ sepScan true (rest ++ .spawn :: l2 ++ .spawn :: l3) = true := by
        simpa [sepScan, hse] using h
      exact ih true l2 l3 h1.2 hns

/-- C2: a successful upgrade appends exactly the block terminate, delete,
download, spawn, in that order; and over any whole run from a fresh state,
between two consecutive spawn events (however many ticks apart) a
terminate-and-wait occurs. -/
theorem claim2_upgrade_ordering :
    (∀ cfg io r s s1, upgradeSequence cfg io r s = .ok () s1 →
      s1.events = s.events ++ [.terminate, .delete, .download, .spawn])
    ∧ (∀ cfg startEnv loopEnvs fs0 l1 l2 l3,
        (rresSt (run cfg startEnv loopEnvs (initSt fs0))).events
          = l1 ++ .spawn :: l2 ++ .spawn :: l3 →
        (∀ e ∈ l2, isSpawn e = false) → ∃ e ∈ l2, isTerm e = true) := by
  constructor
  · intro cfg io r s s1 h
    rcases upgradeSequence_events cfg io r s with ⟨s2, hu, he⟩ | ⟨e, s2, hu, -⟩
    · rw [h] at hu
      cases hu
      exact he
    · rw [h] at hu
      cases hu
  · intro cfg startEnv loopEnvs fs0 l1 l2 l3 hsplit hns
    have h := run_sepScan cfg startEnv loopEnvs fs0
    rw [hsplit] at h
    exact sepScan_between l1 false l2 l3 h hns

/-- C2 witness: a concrete successful upgrade appends the full ordered
block, and a concrete two-spawn run (bootstrap then one upgrade tick) has a
terminate between its spawns. -/
theorem claim2_witness :
    (St.mk (some ⟨42, "./vault-2", ["--keyname=alice"]⟩)
        (some ⟨⟨"https://host/vault-2", 0⟩, "./vault-2", "vault-2"⟩)
        [("./vault-2", ⟨[1, 2, 3], 0o700⟩)]
        [.terminate, .delete, .download, .spawn]).events
      = runningSt.events ++ [.terminate, .delete, .download, .spawn]
    ∧ ∃ e ∈ [Event.terminate, Event.delete, Event.download], isTerm e = true := by
  constructor
  · exact claim2_upgrade_ordering.1 defaultCfg happyIo ⟨"https://host/vault-2", 0⟩ runningSt
      (St.mk (some ⟨42, "./vault-2", ["--keyname=alice"]⟩)
        (some ⟨⟨"https://host/vault-2", 0⟩, "./vault-2", "vault-2"⟩)
        [("./vault-2", ⟨[1, 2, 3], 0o700⟩)]
        [.terminate, .delete, .download, .spawn]) rfl
  · exact claim2_upgrade_ordering.2 defaultCfg ⟨.ok (some ⟨"https://host/vault", 0⟩), happyIo⟩
      [⟨.ok (some ⟨"https://host/vault-2", 0⟩), happyIo⟩] []
      [.download] [.terminate, .delete, .download] [] rfl (by decide)

end Vaultvisor
